import Mathlib

/-!
Verification of the free-exercise-db MCP server (TypeScript sources under
`mcp/src/`).  The development shallowly embeds the parts of the program the
claims speak about:

* the exercise data model and the query handlers `list_exercises`,
  `get_exercise`, `search_exercises` (from `mcp/src/index.ts` /
  `mcp/src/tools.ts`, whose handler bodies are identical);
* the HTTP session layer `mcpHandler` / `transport.onclose` of
  `mcp/src/index.ts` (session table keyed by the `mcp-session-id` header);
* the stateless per-request POST handler of
  `mcp/src/transport/transports.ts`;
* the configuration defaults of `mcp/src/config/server-config.ts`,
  `mcp/src/server.ts` and `mcp/src/index.ts`.

JavaScript strings are embedded as Lean `String`; `undefined`/absent values
as `Option`; JS truthiness of an optional string (`undefined` and `""` are
falsy) is made explicit.  `JSON.stringify` of a record is embedded as an
injective constructor carrying the record, since no claim depends on the
rendered text.
-/

/-- An exercise record, following the `Exercise` interface of
`mcp/src/index.ts` (`force`, `mechanic`, `equipment` are `string | null`). -/
structure Exercise where
  id : String
  name : String
  force : Option String
  level : String
  mechanic : Option String
  equipment : Option String
  primaryMuscles : List String
  secondaryMuscles : List String
  instructions : List String
  category : String
  images : List String
deriving DecidableEq, Repr

/-- The `{id, name}` projection returned by the listing/search tools. -/
structure IdName where
  id : String
  name : String
deriving DecidableEq, Repr

/-- `(e) => ({ id: e.id, name: e.name })`. -/
def projIdName (e : Exercise) : IdName := ⟨e.id, e.name⟩

/-- The argument object of the `list_exercises` tool: five optional string
fields (absent = `none`). -/
structure ListFilters where
  category : Option String := none
  equipment : Option String := none
  level : Option String := none
  force : Option String := none
  mechanic : Option String := none
deriving DecidableEq, Repr

/-- One guarded filter pass `if (args.f) filtered = filtered.filter(p(args.f))`:
JS truthiness skips the pass when the field is absent OR the empty string. -/
def filterPass (o : Option String) (p : String → Exercise → Bool)
    (l : List Exercise) : List Exercise :=
  match o with
  | none => l
  | some v => if v = "" then l else l.filter (p v)

/-- The five sequential filter passes of the `list_exercises` handler
(`mcp/src/index.ts` lines 176–193): category, equipment, level, force,
mechanic, in source order. -/
def applyFilters (args : ListFilters) (exercises : List Exercise) : List Exercise :=
  filterPass args.mechanic (fun v e => e.mechanic = some v)
    (filterPass args.force (fun v e => e.force = some v)
      (filterPass args.level (fun v e => e.level = v)
        (filterPass args.equipment (fun v e => e.equipment = some v)
          (filterPass args.category (fun v e => e.category = v) exercises))))

/-- The `list_exercises` tool handler: guarded filter chain, then the
`{id, name}` projection. -/
def list_exercises (args : ListFilters) (exercises : List Exercise) : List IdName :=
  (applyFilters args exercises).map projIdName

/-- `s.toLowerCase()` on the character list of `s` (ASCII case fold, the
restriction of the JS semantics exercised by this program's data). -/
def lowerL (s : String) : List Char := s.toList.map Char.toLower

/-- `needle` is a prefix of `hay` (character-by-character scan). -/
def beginsWith : List Char → List Char → Bool
  | [], _ => true
  | _ :: _, [] => false
  | a :: as, b :: bs => a == b && beginsWith as bs

/-- `hay.includes(needle)` of JS: scan every suffix of `hay` for `needle`
at its front; the empty needle is contained in every string. -/
def jsIncludes (needle : List Char) : List Char → Bool
  | [] => needle.isEmpty
  | c :: rest => beginsWith needle (c :: rest) || jsIncludes needle rest

/-- The `search_exercises` tool handler (`mcp/src/index.ts` lines 225–247):
lower-case the query once, keep the records whose lowered name or any lowered
instruction line contains it, project to `{id, name}`. -/
def search_exercises (query : String) (exercises : List Exercise) : List IdName :=
  let lowerQuery := lowerL query
  (exercises.filter (fun e =>
      jsIncludes lowerQuery (lowerL e.name) ||
      e.instructions.any (fun inst => jsIncludes lowerQuery (lowerL inst)))).map projIdName

/-- Specification-side predicate: the query is a case-insensitive substring
of the record's name or of at least one instruction line (stated with the
library's infix-sublist relation, independently of the scanning code). -/
def ciMatch (q : String) (e : Exercise) : Prop :=
  lowerL q <:+: lowerL e.name ∨ ∃ inst ∈ e.instructions, lowerL q <:+: lowerL inst

instance ciMatchDecidable (q : String) (e : Exercise) : Decidable (ciMatch q e) := by
  unfold ciMatch
  exact inferInstance

/-- A content block of a tool/resource result.  `JSON.stringify` of a full
record is embedded as the injective constructor `json`. -/
inductive Content where
  | text (s : String)
  | json (e : Exercise)
deriving DecidableEq, Repr

/-- A tool call result: content blocks plus the `isError` flag (absent in the
source means `false`). -/
structure ToolResult where
  content : List Content
  isError : Bool := false
deriving DecidableEq, Repr

/-- The `get_exercise` tool handler: `find` on the id, an error-flagged text
result when absent, the full record otherwise.  It returns normally in both
cases — the embedding's total return type is the image of "never throws past
the tool boundary". -/
def get_exercise (exercises : List Exercise) (eid : String) : ToolResult :=
  match exercises.find? (fun e => e.id = eid) with
  | none => ⟨[.text ("Exercise with ID " ++ eid ++ " not found.")], true⟩
  | some e => ⟨[.json e], false⟩

/-- The `exercise://{id}` resource read handler (`mcp/src/server.ts` lines
50–70): `find` on the id, `throw new Error(...)` when absent — embedded as
`Except.error` with the thrown message — the full record otherwise. -/
def readExerciseResource (exercises : List Exercise) (eid : String) :
    Except String Content :=
  match exercises.find? (fun e => e.id = eid) with
  | none => .error ("Exercise with ID " ++ eid ++ " not found")
  | some e => .ok (.json e)

/-- Sample record used for concrete evaluations (shape of the spec's
concrete scenario). -/
def pushupEx : Exercise :=
  { id := "a", name := "Push-up", force := some "push", level := "beginner",
    mechanic := some "compound", equipment := none,
    primaryMuscles := ["chest"], secondaryMuscles := ["triceps"],
    instructions := ["Lower your body.", "Press back up."],
    category := "strength", images := [] }

/-- Second sample record. -/
def squatEx : Exercise :=
  { id := "b", name := "Squat", force := some "push", level := "beginner",
    mechanic := some "compound", equipment := none,
    primaryMuscles := ["quadriceps"], secondaryMuscles := ["glutes"],
    instructions := ["Bend your knees.", "Stand back up."],
    category := "strength", images := [] }

/-- Specification-side retention predicate for `list_exercises`: every
supplied, non-empty filter field exactly equals the record's corresponding
field. -/
def matchesFilters (args : ListFilters) (e : Exercise) : Prop :=
  (∀ v, args.category = some v → v ≠ "" → e.category = v) ∧
  (∀ v, args.equipment = some v → v ≠ "" → e.equipment = some v) ∧
  (∀ v, args.level = some v → v ≠ "" → e.level = v) ∧
  (∀ v, args.force = some v → v ≠ "" → e.force = some v) ∧
  (∀ v, args.mechanic = some v → v ≠ "" → e.mechanic = some v)

/-! ## The HTTP session layer of `mcp/src/index.ts` -/

/-- HTTP method of a request reaching the `/mcp` route (the three methods the
route is registered for). -/
inductive HttpMethod where
  | post
  | get
  | delete
deriving DecidableEq, Repr

/-- A request as observed by `mcpHandler`: the `mcp-session-id` header
(`none` when absent) and the JSON-RPC `method` field of the parsed body,
when the body carries one. -/
structure McpRequest where
  sessionId : Option String
  method : HttpMethod
  bodyMethod : Option String
deriving DecidableEq, Repr

/-- JS truthiness of the optional header value: `undefined` and `""` are
falsy. -/
def truthyStr : Option String → Bool
  | none => false
  | some s => s ≠ ""

/-- Association-list lookup, the embedding of indexing a JS string-keyed
record (`transports[sid]`). -/
def alookup {β : Type} : List (String × β) → String → Option β
  | [], _ => none
  | (k, v) :: rest, key => if k = key then some v else alookup rest key

/-- `delete transports[sid]`: remove the key from the record. -/
def adelete {β : Type} : List (String × β) → String → List (String × β)
  | [], _ => []
  | (a, b) :: rest, key =>
      if a = key then adelete rest key else (a, b) :: adelete rest key

/-- The single module-level `Server` instance of `mcp/src/index.ts`
(allocated once at module load; the handler closes over it). -/
def mcpServerId : Nat := 0

/-- The mutable state of the HTTP session layer: the `transports` record
(session identifier → transport, each transport named by an allocation
index), the next fresh transport index, and the log of `server.connect`
calls as `(transport, server)` pairs. -/
structure SessionState where
  transports : List (String × Nat)
  nextTid : Nat
  conns : List (Nat × Nat)
deriving DecidableEq, Repr

/-- The state at module load: no sessions, no transports, no connections. -/
def initState : SessionState := ⟨[], 0, []⟩

/-- What happened inside `transport.handleRequest`: it completed, or it threw
(`initializedBeforeFail` records whether `onsessioninitialized` had already
inserted the new session; `headersSent` is `res.headersSent` at the catch). -/
inductive DispatchOutcome where
  | ok
  | fail (initializedBeforeFail : Bool) (headersSent : Bool)
deriving DecidableEq, Repr

/-- The response sent back on one `/mcp` request. -/
inductive HttpResponse where
  | handled (tid : Nat)
  | initialized (sid : String) (tid : Nat)
  | errorEnvelope (status : Nat) (code : Int)
  | internalError
  | noneSent
deriving DecidableEq, Repr

/-- The guard `sessionId && transports[sessionId]` of the first branch:
the stored transport, provided the header is truthy and the key present. -/
def sessionLookup (s : SessionState) (r : McpRequest) : Option Nat :=
  match r.sessionId with
  | none => none
  | some sid => if sid = "" then none else alookup s.transports sid

/-- The `mcpHandler` of `mcp/src/index.ts` (lines 304–349).  `newSid` is the
value `randomUUID()` would produce for this request (used only on the create
path); `d` is the outcome of the `transport.handleRequest` call.  Branches,
in source order: reuse a stored transport; else create one when the header is
falsy and the body is a POSTed `initialize`; else answer the 400 error
envelope with code `-32000`.  The surrounding `try/catch` answers 500 when
the dispatch throws before headers are sent. -/
def mcpHandler (s : SessionState) (r : McpRequest) (newSid : String)
    (d : DispatchOutcome) : SessionState × HttpResponse :=
  match sessionLookup s r with
  | some tid =>
      match d with
      | .ok => (s, .handled tid)
      | .fail _ hs => (s, if hs then .noneSent else .internalError)
  | none =>
      if truthyStr r.sessionId = false ∧ r.method = HttpMethod.post ∧
          r.bodyMethod = some "initialize" then
        match d with
        | .ok =>
            ({ transports := (newSid, s.nextTid) :: s.transports,
               nextTid := s.nextTid + 1,
               conns := (s.nextTid, mcpServerId) :: s.conns },
             .initialized newSid s.nextTid)
        | .fail ib hs =>
            ({ transports :=
                 if ib then (newSid, s.nextTid) :: s.transports else s.transports,
               nextTid := s.nextTid + 1,
               conns := (s.nextTid, mcpServerId) :: s.conns },
             if hs then .noneSent else .internalError)
      else
        (s, .errorEnvelope 400 (-32000))

/-- The `transport.onclose` callback (lines 322–328): read the transport's
own `sessionId` (`tsid`, `undefined` before initialization) and delete the
table entry when the id is truthy and present; otherwise do nothing.  The
callback has no error path: it returns a state in every case. -/
def transportOnClose (s : SessionState) (tsid : Option String) : SessionState :=
  match tsid with
  | none => s
  | some sid =>
      if sid = "" then s
      else if (alookup s.transports sid).isSome then
        { s with transports := adelete s.transports sid }
      else s

/-- One event processed by the session layer: an HTTP request through
`mcpHandler` (with `randomUUID()` assumed collision-resistant: the generated
identifier is non-empty and not a current key), or a transport close
signal. -/
inductive SessionStep : SessionState → SessionState → Prop where
  | request (s : SessionState) (r : McpRequest) (newSid : String)
      (d : DispatchOutcome) (hfresh : alookup s.transports newSid = none)
      (hne : newSid ≠ "") : SessionStep s (mcpHandler s r newSid d).1
  | close (s : SessionState) (tsid : Option String) :
      SessionStep s (transportOnClose s tsid)

/-- States reachable from module load by any interleaving of requests and
close signals. -/
inductive ReachableState : SessionState → Prop where
  | init : ReachableState initState
  | step {s t : SessionState} : ReachableState s → SessionStep s t →
      ReachableState t

/-! ## The stateless POST handler of `mcp/src/transport/transports.ts` -/

/-- Response of the per-request handler of `setupHttpTransport` (no session
table exists there). -/
inductive StreamableResponse where
  | handled
  | jsonError (status : Nat) (code : Int)
  | noneSent
deriving DecidableEq, Repr

/-- The POST `/mcp` handler of `setupHttpTransport` (lines 87–114): a fresh
transport per request, and a catch answering the JSON-RPC internal-error
envelope (`code -32603`, HTTP 500) when the dispatch threw before headers
were sent. -/
def streamableHttpPost (d : DispatchOutcome) : StreamableResponse :=
  match d with
  | .ok => .handled
  | .fail _ hs => if hs then .noneSent else .jsonError 500 (-32603)

/-! ## Configuration (`config/server-config.ts`, `server.ts`, `index.ts`) -/

/-- `parseInt(s, 10)` restricted to its use here: the value of the leading
decimal digits, `none` standing for `NaN` when there is no leading digit. -/
def jsParseInt (s : String) : Option Nat :=
  let ds := s.toList.takeWhile Char.isDigit
  if ds.isEmpty then none
  else some (ds.foldl (fun n c => n * 10 + (c.toNat - 48)) 0)

/-- `config/server-config.ts` line 6:
`PORT = process.env.PORT ? parseInt(process.env.PORT, 10) : 3000`. -/
def PORT (envPORT : Option String) : Option Nat :=
  match envPORT with
  | none => some 3000
  | some s => if s = "" then some 3000 else jsParseInt s

/-- `config/server-config.ts` line 7: `HOST = process.env.HOST || "0.0.0.0"`. -/
def HOST (envHOST : Option String) : String :=
  match envHOST with
  | none => "0.0.0.0"
  | some s => if s = "" then "0.0.0.0" else s

/-- The two transports. -/
inductive TransportKind where
  | stdio
  | http
deriving DecidableEq, Repr

/-- Transport selection of `server.ts` `startServer` (lines 87–92): stdio
exactly when `process.env.TRANSPORT === "stdio"`, HTTP otherwise. -/
def startServerTransport (envTRANSPORT : Option String) : TransportKind :=
  if envTRANSPORT = some "stdio" then .stdio else .http

/-- Transport selection of `index.ts` `main` (lines 289–290): HTTP exactly
when `--http` appears among the process arguments. -/
def indexTransport (argv : List String) : TransportKind :=
  if argv.contains "--http" then .http else .stdio

/-- `a.startsWith(pre)` of JS, via the character-list prefix scan. -/
def jsStartsWith (a pre : String) : Bool := beginsWith pre.toList a.toList

/-- Split a character list at every occurrence of the separator character. -/
def splitCharsOn (c : Char) : List Char → List (List Char)
  | [] => [[]]
  | a :: rest =>
      let r := splitCharsOn c rest
      if a = c then [] :: r
      else
        match r with
        | [] => [[a]]
        | h :: t => (a :: h) :: t

/-- `s.split("=")` of JS (single-character separator). -/
def jsSplitEq (s : String) : List String :=
  (splitCharsOn '=' s.toList).map List.asString

/-- Bind host of the HTTP branch of `index.ts` `main` (line 297): the
`--host=` argument when present, else the literal `"localhost"` (the `HOST`
environment variable is not consulted). -/
def indexHost (argv : List String) : String :=
  match argv.find? (fun a => jsStartsWith a "--host=") with
  | some a => (jsSplitEq a).getD 1 ""
  | none => "localhost"

/-- Bind port of the HTTP branch of `index.ts` `main` (line 296): the
`--port=` argument when present, else `parseInt(process.env.PORT || "3000")`. -/
def indexPort (argv : List String) (envPORT : Option String) : Option Nat :=
  match argv.find? (fun a => jsStartsWith a "--port=") with
  | some a => jsParseInt ((jsSplitEq a).getD 1 "")
  | none =>
      jsParseInt
        (match envPORT with
         | none => "3000"
         | some s => if s = "" then "3000" else s)

/-! ## Helper lemmas -/

theorem alookup_eq_none {β : Type} (l : List (String × β)) (k : String) :
    alookup l k = none ↔ k ∉ l.map Prod.fst := by
  induction l with
  | nil => simp [alookup]
  | cons p rest ih =>
      obtain ⟨a, b⟩ := p
      by_cases h : a = k
      · subst h
        simp [alookup]
      · simp only [alookup, List.map_cons, List.mem_cons, if_neg h]
        rw [ih]
        constructor
        · rintro hn ⟨rfl | hm⟩
          · exact h rfl
          · exact hn ‹_›
        · intro hn hm
          exact hn (Or.inr hm)

theorem alookup_adelete {β : Type} (l : List (String × β)) (k : String) :
    alookup (adelete l k) k = none := by
  induction l with
  | nil => rfl
  | cons p rest ih =>
      obtain ⟨a, b⟩ := p
      by_cases h : a = k
      · simpa [adelete, h] using ih
      · simpa [adelete, h, alookup] using ih

theorem adelete_of_alookup_none {β : Type} (l : List (String × β)) (k : String)
    (h : alookup l k = none) : adelete l k = l := by
  induction l with
  | nil => rfl
  | cons p rest ih =>
      obtain ⟨a, b⟩ := p
      by_cases hk : a = k
      · simp [alookup, hk] at h
      · simp only [alookup, if_neg hk] at h
        simp [adelete, hk, ih h]

theorem adelete_sublist {β : Type} (l : List (String × β)) (k : String) :
    (adelete l k).Sublist l := by
  induction l with
  | nil => simp [adelete]
  | cons p rest ih =>
      obtain ⟨a, b⟩ := p
      by_cases h : a = k
      · simpa [adelete, h] using ih.cons (a, b)
      · simpa [adelete, h] using ih.cons₂ (a, b)

theorem beginsWith_iff (n : List Char) :
    ∀ h : List Char, beginsWith n h = true ↔ n <+: h := by
  induction n with
  | nil =>
      intro h
      simp [beginsWith, List.nil_prefix]
  | cons a as ih =>
      intro h
      cases h with
      | nil => simp [beginsWith]
      | cons b bs => simp [beginsWith, List.cons_prefix_cons, ih bs]

theorem jsIncludes_iff (n : List Char) :
    ∀ h : List Char, jsIncludes n h = true ↔ n <:+: h := by
  intro h
  induction h with
  | nil => simp [jsIncludes, List.isEmpty_iff]
  | cons c rest ih =>
      rw [List.infix_cons_iff]
      simp [jsIncludes, beginsWith_iff, ih]

theorem mem_filterPass (o : Option String) (p : String → Exercise → Bool)
    (l : List Exercise) (e : Exercise) :
    e ∈ filterPass o p l ↔ e ∈ l ∧ ∀ v, o = some v → v ≠ "" → p v e = true := by
  cases o with
  | none => simp [filterPass]
  | some v =>
      by_cases h : v = ""
      · subst h
        simp [filterPass]
      · simp [filterPass, h, List.mem_filter]

theorem mem_applyFilters (args : ListFilters) (exs : List Exercise) (e : Exercise) :
    e ∈ applyFilters args exs ↔ e ∈ exs ∧ matchesFilters args e := by
  simp only [applyFilters, mem_filterPass, decide_eq_true_eq, matchesFilters]
  tauto

theorem sessionInv_preserved {s t : SessionState} (hstep : SessionStep s t)
    (ih1 : (s.transports.map Prod.fst).Nodup)
    (ih2 : ∀ p ∈ s.conns, p.2 = mcpServerId)
    (ih3 : ∀ p ∈ s.conns, p.1 < s.nextTid) :
    (t.transports.map Prod.fst).Nodup ∧
    (∀ p ∈ t.conns, p.2 = mcpServerId) ∧
    (∀ p ∈ t.conns, p.1 < t.nextTid) := by
  cases hstep with
  | request r newSid d hfresh hne =>
      unfold mcpHandler
      cases hsl : sessionLookup s r with
      | some tid =>
          cases d <;> exact ⟨ih1, ih2, ih3⟩
      | none =>
          by_cases hcond : truthyStr r.sessionId = false ∧
              r.method = HttpMethod.post ∧ r.bodyMethod = some "initialize"
          · have hnotin : newSid ∉ s.transports.map Prod.fst :=
              (alookup_eq_none _ _).mp hfresh
            cases d with
            | ok =>
                rw [if_pos hcond]
                refine ⟨List.nodup_cons.mpr ⟨hnotin, ih1⟩, ?_, ?_⟩
                · intro p hp
                  rcases List.mem_cons.mp hp with rfl | hp2
                  · rfl
                  · exact ih2 p hp2
                · intro p hp
                  rcases List.mem_cons.mp hp with rfl | hp2
                  · exact Nat.lt_succ_self _
                  · exact Nat.lt_succ_of_lt (ih3 p hp2)
            | fail ib hs =>
                rw [if_pos hcond]
                refine ⟨?_, ?_, ?_⟩
                · cases ib with
                  | true => exact List.nodup_cons.mpr ⟨hnotin, ih1⟩
                  | false => exact ih1
                · intro p hp
                  rcases List.mem_cons.mp hp with rfl | hp2
                  · rfl
                  · exact ih2 p hp2
                · intro p hp
                  rcases List.mem_cons.mp hp with rfl | hp2
                  · exact Nat.lt_succ_self _
                  · exact Nat.lt_succ_of_lt (ih3 p hp2)
          · rw [if_neg hcond]
            exact ⟨ih1, ih2, ih3⟩
  | close tsid =>
      cases tsid with
      | none => exact ⟨ih1, ih2, ih3⟩
      | some sid =>
          by_cases hemp : sid = ""
          · have ht : transportOnClose s (some sid) = s := by
              simp [transportOnClose, hemp]
            rw [ht]
            exact ⟨ih1, ih2, ih3⟩
          · by_cases hpres : (alookup s.transports sid).isSome
            · have ht : transportOnClose s (some sid) =
                  { s with transports := adelete s.transports sid } := by
                simp [transportOnClose, hemp, hpres]
              rw [ht]
              exact ⟨ih1.sublist ((adelete_sublist _ _).map Prod.fst), ih2, ih3⟩
            · have ht : transportOnClose s (some sid) = s := by
                simp [transportOnClose, hemp, hpres]
              rw [ht]
              exact ⟨ih1, ih2, ih3⟩

theorem sessionInv_of_reachable {s : SessionState} (h : ReachableState s) :
    (s.transports.map Prod.fst).Nodup ∧
    (∀ p ∈ s.conns, p.2 = mcpServerId) ∧
    (∀ p ∈ s.conns, p.1 < s.nextTid) := by
  induction h with
  | init => simp [initState]
  | step hr hstep ih => exact sessionInv_preserved hstep ih.1 ih.2.1 ih.2.2

theorem list_exercises_category_eq (X : String) (hX : X ≠ "")
    (exs : List Exercise) :
    list_exercises { category := some X } exs
      = (exs.filter (fun e => e.category = X)).map projIdName := by
  simp [list_exercises, applyFilters, filterPass, hX]

theorem sessionLookup_eq_none_of_falsy {s : SessionState} {r : McpRequest}
    (h : truthyStr r.sessionId = false) : sessionLookup s r = none := by
  cases hr : r.sessionId with
  | none => simp [sessionLookup, hr]
  | some sid =>
      have hsid : sid = "" := by simpa [truthyStr, hr] using h
      simp [sessionLookup, hr, hsid]

/-! ## The claims -/

/-- C7 counterexample: `list_exercises` with `category=""` supplied does NOT
return the records whose category equals `""` — the truthiness guard skips
the pass and every record is returned, so the claim's "for every string X"
fails at `X = ""`. -/
theorem c7_counterexample :
    list_exercises { category := some "" } [pushupEx]
      ≠ ([pushupEx].filter (fun e => e.category = "")).map projIdName := by
  decide

/-- C7 (amended to non-empty filter values): for every non-empty string X,
`list_exercises` with `category=X` returns exactly the `{id,name}`
projections of the records whose category equals X; in general a record is
retained iff every supplied non-empty filter field exactly equals the
record's corresponding field; and when zero records match the result is the
empty array, not an error (the handler is total). -/
theorem c7_category_filter :
    (∀ X : String, X ≠ "" → ∀ exs : List Exercise,
        list_exercises { category := some X } exs
          = (exs.filter (fun e => e.category = X)).map projIdName) ∧
    (∀ (args : ListFilters) (exs : List Exercise) (e : Exercise),
        e ∈ applyFilters args exs ↔ e ∈ exs ∧ matchesFilters args e) ∧
    (∀ X : String, X ≠ "" → ∀ exs : List Exercise,
        (∀ e ∈ exs, e.category ≠ X) →
        list_exercises { category := some X } exs = []) := by
  refine ⟨fun X hX exs => list_exercises_category_eq X hX exs, mem_applyFilters, ?_⟩
  intro X hX exs h
  rw [list_exercises_category_eq X hX exs]
  have hnil : exs.filter (fun e => e.category = X) = [] := by
    rw [List.filter_eq_nil_iff]
    intro e he
    simpa using h e he
  rw [hnil]
  rfl

/-- C7 witness: the amended theorem applied at concrete inputs. -/
theorem c7_witness :
    ("strength" ≠ "" ∧
      list_exercises { category := some "strength" } [pushupEx, squatEx]
        = ([pushupEx, squatEx].filter (fun e => e.category = "strength")).map
            projIdName) ∧
    (pushupEx ∈ applyFilters { category := some "strength" } [pushupEx] ↔
      pushupEx ∈ [pushupEx] ∧ matchesFilters { category := some "strength" } pushupEx) ∧
    list_exercises { category := some "cardio" } [pushupEx] = [] := by
  refine ⟨⟨by decide, c7_category_filter.1 "strength" (by decide) _⟩,
          c7_category_filter.2.1 _ _ _,
          c7_category_filter.2.2 "cardio" (by decide) [pushupEx] (by decide)⟩

/-- C8: `search_exercises` returns exactly the (projections of the) records
for which the query is a case-insensitive substring of the name or of at
least one instruction line — the handler's prefix-scan agrees pointwise with
the infix-sublist specification — and the record named "Push-up" matches the
query "PUSH". -/
theorem c8_search :
    (∀ (q : String) (exs : List Exercise),
        search_exercises q exs
          = (exs.filter (fun e => decide (ciMatch q e))).map projIdName) ∧
    search_exercises "PUSH" [pushupEx, squatEx] = [projIdName pushupEx] := by
  constructor
  · intro q exs
    simp only [search_exercises]
    congr 1
    apply List.filter_congr
    intro e _
    have h1 : (jsIncludes (lowerL q) (lowerL e.name)
        || e.instructions.any fun inst => jsIncludes (lowerL q) (lowerL inst)) = true
          ↔ ciMatch q e := by
      simp [ciMatch, jsIncludes_iff]
    by_cases hc : ciMatch q e
    · rw [h1.mpr hc, decide_eq_true hc]
    · rw [decide_eq_false hc]
      cases hbig : (jsIncludes (lowerL q) (lowerL e.name)
          || e.instructions.any fun inst => jsIncludes (lowerL q) (lowerL inst)) with
      | false => rfl
      | true => exact absurd (h1.mp hbig) hc
  · decide

/-- C9: for an id not present in the dataset, the `get_exercise` tool
returns a content result flagged `isError` (the handler is total: it never
throws past the tool boundary), while the `exercise://{id}` resource read
fails the read — embedded as `Except.error` with the thrown message — and
this asymmetry between tool and resource is preserved. -/
theorem c9_not_found :
    ∀ (exs : List Exercise) (eid : String), (∀ e ∈ exs, e.id ≠ eid) →
      get_exercise exs eid
          = ⟨[.text ("Exercise with ID " ++ eid ++ " not found.")], true⟩ ∧
      (get_exercise exs eid).isError = true ∧
      readExerciseResource exs eid
          = .error ("Exercise with ID " ++ eid ++ " not found") := by
  intro exs eid h
  have hf : exs.find? (fun e => e.id = eid) = none := by
    rw [List.find?_eq_none]
    intro e he
    simpa using h e he
  refine ⟨?_, ?_, ?_⟩ <;> simp [get_exercise, readExerciseResource, hf]

/-- C9 witness: the theorem applied at a concrete dataset and unknown id. -/
theorem c9_witness :
    (∀ e ∈ [pushupEx], e.id ≠ "nonexistent") ∧
    (get_exercise [pushupEx] "nonexistent").isError = true ∧
    readExerciseResource [pushupEx] "nonexistent"
      = .error ("Exercise with ID " ++ "nonexistent" ++ " not found") := by
  refine ⟨by decide,
          (c9_not_found [pushupEx] "nonexistent" (by decide)).2.1,
          (c9_not_found [pushupEx] "nonexistent" (by decide)).2.2⟩

/-- C10: supplying the empty string for any of the five filter fields of
`list_exercises` behaves exactly as omitting the field (the truthiness guard
skips that predicate pass), and with all five fields set to `""` every
record's `{id, name}` is returned. -/
theorem c10_empty_filters :
    ∀ (args : ListFilters) (exs : List Exercise),
      (list_exercises { args with category := some "" } exs
        = list_exercises { args with category := none } exs) ∧
      (list_exercises { args with equipment := some "" } exs
        = list_exercises { args with equipment := none } exs) ∧
      (list_exercises { args with level := some "" } exs
        = list_exercises { args with level := none } exs) ∧
      (list_exercises { args with force := some "" } exs
        = list_exercises { args with force := none } exs) ∧
      (list_exercises { args with mechanic := some "" } exs
        = list_exercises { args with mechanic := none } exs) ∧
      list_exercises { category := some "", equipment := some "",
                       level := some "", force := some "",
                       mechanic := some "" } exs = exs.map projIdName := by
  intro args exs
  refine ⟨?_, ?_, ?_, ?_, ?_, ?_⟩ <;> simp [list_exercises, applyFilters, filterPass]

/-- C1: an HTTP POST `initialize` request carrying no session identifier
creates exactly one new session entry, keyed by the server-generated
identifier which is returned to the client; a subsequent request carrying a
stored identifier is dispatched through the same stored transport with no
state change; and at every reachable state the session table holds at most
one entry per identifier (its keys are pairwise distinct). -/
theorem c1_session_lifecycle :
    (∀ (s : SessionState) (r : McpRequest) (newSid : String),
        r.sessionId = none → r.method = HttpMethod.post →
        r.bodyMethod = some "initialize" →
        mcpHandler s r newSid .ok
          = ({ transports := (newSid, s.nextTid) :: s.transports,
               nextTid := s.nextTid + 1,
               conns := (s.nextTid, mcpServerId) :: s.conns },
             .initialized newSid s.nextTid)) ∧
    (∀ (s : SessionState) (r : McpRequest) (newSid : String) (tid : Nat),
        sessionLookup s r = some tid →
        mcpHandler s r newSid .ok = (s, .handled tid)) ∧
    (∀ s : SessionState, ReachableState s → (s.transports.map Prod.fst).Nodup) := by
  refine ⟨?_, ?_, fun s h => (sessionInv_of_reachable h).1⟩
  · intro s r newSid h1 h2 h3
    have hsl : sessionLookup s r = none := by simp [sessionLookup, h1]
    simp [mcpHandler, hsl, truthyStr, h1, h2, h3]
  · intro s r newSid tid hsl
    simp [mcpHandler, hsl]

/-- C1 witness: the three parts of the theorem at concrete inputs —
initialization from the empty table, reuse of the stored identifier, and
key distinctness of a concrete reachable state. -/
theorem c1_witness :
    mcpHandler initState ⟨none, .post, some "initialize"⟩ "s1" .ok
        = (⟨[("s1", 0)], 1, [(0, 0)]⟩, .initialized "s1" 0) ∧
    mcpHandler ⟨[("s1", 0)], 1, [(0, 0)]⟩ ⟨some "s1", .post, some "tools/call"⟩
        "s2" .ok = (⟨[("s1", 0)], 1, [(0, 0)]⟩, .handled 0) ∧
    (((⟨[("s1", 0)], 1, [(0, 0)]⟩ : SessionState).transports.map Prod.fst)).Nodup := by
  have hreach : ReachableState (⟨[("s1", 0)], 1, [(0, 0)]⟩ : SessionState) := by
    have hs : SessionStep initState
        (mcpHandler initState ⟨none, .post, some "initialize"⟩ "s1" .ok).1 :=
      SessionStep.request initState ⟨none, .post, some "initialize"⟩ "s1" .ok rfl
        (by decide)
    exact ReachableState.step ReachableState.init hs
  exact ⟨c1_session_lifecycle.1 initState ⟨none, .post, some "initialize"⟩ "s1"
           rfl rfl rfl,
         c1_session_lifecycle.2.1 _ _ "s2" 0 (by decide),
         c1_session_lifecycle.2.2 _ hreach⟩

/-- C2 counterexample: a POST `initialize` request carrying the session
identifier `""` — which is absent from the (empty) session table — is NOT
rejected: the handler creates a new session and changes the table, because
the empty header value is falsy in JS.  The claim's universal "every request
carrying a session identifier absent from the table is rejected with no
state change" fails at this input. -/
theorem c2_counterexample :
    alookup initState.transports "" = none ∧
    (mcpHandler initState ⟨some "", .post, some "initialize"⟩ "u1" .ok).1.transports
        = [("u1", 0)] ∧
    (mcpHandler initState ⟨some "", .post, some "initialize"⟩ "u1" .ok).2
        ≠ HttpResponse.errorEnvelope 400 (-32000) := by
  decide

/-- C2 (amended to non-empty identifiers): every request carrying a
NON-empty session identifier absent from the table, and every
non-initializing request carrying no (or an empty) session identifier, is
answered with the protocol-level error envelope (HTTP 400, JSON-RPC code
-32000) and the state is unchanged. -/
theorem c2_reject :
    (∀ (s : SessionState) (r : McpRequest) (newSid : String)
        (d : DispatchOutcome) (sid : String),
        r.sessionId = some sid → sid ≠ "" → alookup s.transports sid = none →
        mcpHandler s r newSid d = (s, .errorEnvelope 400 (-32000))) ∧
    (∀ (s : SessionState) (r : McpRequest) (newSid : String)
        (d : DispatchOutcome),
        truthyStr r.sessionId = false →
        ¬(r.method = HttpMethod.post ∧ r.bodyMethod = some "initialize") →
        mcpHandler s r newSid d = (s, .errorEnvelope 400 (-32000))) := by
  constructor
  · intro s r newSid d sid h1 h2 h3
    have hsl : sessionLookup s r = none := by simp [sessionLookup, h1, h3]
    have hcond : ¬(truthyStr r.sessionId = false ∧ r.method = HttpMethod.post ∧
        r.bodyMethod = some "initialize") := by
      rintro ⟨ht, -, -⟩
      simp [truthyStr, h1, h2] at ht
    simp [mcpHandler, hsl, hcond]
  · intro s r newSid d h1 h2
    have hsl : sessionLookup s r = none := sessionLookup_eq_none_of_falsy h1
    have hcond : ¬(truthyStr r.sessionId = false ∧ r.method = HttpMethod.post ∧
        r.bodyMethod = some "initialize") := fun hh => h2 ⟨hh.2.1, hh.2.2⟩
    simp [mcpHandler, hsl, hcond]

/-- C2 witness: both reject cases at concrete inputs — an unknown non-empty
identifier, and an identifier-less non-initializing request. -/
theorem c2_witness :
    mcpHandler initState ⟨some "ghost", .post, some "tools/call"⟩ "n1" .ok
        = (initState, .errorEnvelope 400 (-32000)) ∧
    mcpHandler initState ⟨none, .get, none⟩ "n2" .ok
        = (initState, .errorEnvelope 400 (-32000)) := by
  exact ⟨c2_reject.1 initState ⟨some "ghost", .post, some "tools/call"⟩ "n1" .ok
           "ghost" rfl (by decide) rfl,
         c2_reject.2 initState ⟨none, .get, none⟩ "n2" .ok rfl (by decide)⟩

/-- C3: the close signal removes the session's entry from the table; closing
an identifier that is absent is a no-op (the callback is total — it has no
error path, so the second close of the same identifier never fails); and
close is idempotent. -/
theorem c3_close :
    (∀ (s : SessionState) (sid : String), sid ≠ "" →
        alookup (transportOnClose s (some sid)).transports sid = none) ∧
    (∀ (s : SessionState) (sid : String), alookup s.transports sid = none →
        transportOnClose s (some sid) = s) ∧
    (∀ (s : SessionState) (tsid : Option String),
        transportOnClose (transportOnClose s tsid) tsid
          = transportOnClose s tsid) := by
  refine ⟨?_, ?_, ?_⟩
  · intro s sid hne
    by_cases hpres : (alookup s.transports sid).isSome
    · have ht : transportOnClose s (some sid)
          = { s with transports := adelete s.transports sid } := by
        simp [transportOnClose, hne, hpres]
      rw [ht]
      exact alookup_adelete _ _
    · have hnone : alookup s.transports sid = none := by
        cases hh : alookup s.transports sid
        · rfl
        · simp [hh] at hpres
      have ht : transportOnClose s (some sid) = s := by
        simp [transportOnClose, hne, hpres]
      rw [ht]
      exact hnone
  · intro s sid hnone
    by_cases hne : sid = ""
    · simp [transportOnClose, hne]
    · simp [transportOnClose, hne, hnone]
  · intro s tsid
    cases tsid with
    | none => rfl
    | some sid =>
        by_cases hne : sid = ""
        · simp [transportOnClose, hne]
        · by_cases hpres : (alookup s.transports sid).isSome
          · have h1 : transportOnClose s (some sid)
                = { s with transports := adelete s.transports sid } := by
              simp [transportOnClose, hne, hpres]
            rw [h1]
            have h2 : alookup (adelete s.transports sid) sid = none :=
              alookup_adelete _ _
            simp [transportOnClose, hne, h2]
          · have h1 : transportOnClose s (some sid) = s := by
              simp [transportOnClose, hne, hpres]
            simp [h1]

/-- C3 witness: removal, absent-id no-op and double close at concrete
states. -/
theorem c3_witness :
    ("s1" ≠ "" ∧
      alookup (transportOnClose ⟨[("s1", 0)], 1, [(0, 0)]⟩ (some "s1")).transports
        "s1" = none) ∧
    (alookup (⟨[], 1, [(0, 0)]⟩ : SessionState).transports "gone" = none ∧
      transportOnClose ⟨[], 1, [(0, 0)]⟩ (some "gone") = ⟨[], 1, [(0, 0)]⟩) ∧
    transportOnClose (transportOnClose ⟨[("s1", 0)], 1, [(0, 0)]⟩ (some "s1"))
        (some "s1")
      = transportOnClose ⟨[("s1", 0)], 1, [(0, 0)]⟩ (some "s1") := by
  exact ⟨⟨by decide, c3_close.1 ⟨[("s1", 0)], 1, [(0, 0)]⟩ "s1" (by decide)⟩,
         ⟨rfl, c3_close.2.1 ⟨[], 1, [(0, 0)]⟩ "gone" rfl⟩,
         c3_close.2.2 ⟨[("s1", 0)], 1, [(0, 0)]⟩ (some "s1")⟩

/-- C4: when the dispatch through a stored transport throws, the exception
is caught at the dispatch boundary (the handler returns normally in the
embedding): the session table is unchanged and the session's entry remains;
a generic internal-error response is sent iff no headers had been sent.  The
per-request handler of `transports.ts` likewise answers the JSON-RPC
internal-error envelope (500, code -32603) in its catch. -/
theorem c4_dispatch_failure :
    (∀ (s : SessionState) (r : McpRequest) (newSid : String) (ib hs : Bool)
        (tid : Nat), sessionLookup s r = some tid →
        (mcpHandler s r newSid (.fail ib hs)).1 = s ∧
        sessionLookup (mcpHandler s r newSid (.fail ib hs)).1 r = some tid ∧
        (hs = false →
          (mcpHandler s r newSid (.fail ib hs)).2 = .internalError) ∧
        (hs = true → (mcpHandler s r newSid (.fail ib hs)).2 = .noneSent)) ∧
    (∀ ib : Bool, streamableHttpPost (.fail ib false) = .jsonError 500 (-32603)) := by
  constructor
  · intro s r newSid ib hs tid hsl
    have hgoal : mcpHandler s r newSid (.fail ib hs)
        = (s, if hs then .noneSent else .internalError) := by
      simp [mcpHandler, hsl]
    refine ⟨by rw [hgoal], by rw [hgoal]; exact hsl, ?_, ?_⟩
    · intro h
      subst h
      simp [hgoal]
    · intro h
      subst h
      simp [hgoal]
  · intro ib
    rfl

/-- C4 witness: a dispatch failure on a live session at a concrete state. -/
theorem c4_witness :
    sessionLookup (⟨[("s1", 0)], 1, [(0, 0)]⟩ : SessionState)
        ⟨some "s1", .post, some "tools/call"⟩ = some 0 ∧
    (mcpHandler ⟨[("s1", 0)], 1, [(0, 0)]⟩ ⟨some "s1", .post, some "tools/call"⟩
        "n" (.fail false false)).1 = ⟨[("s1", 0)], 1, [(0, 0)]⟩ ∧
    (mcpHandler ⟨[("s1", 0)], 1, [(0, 0)]⟩ ⟨some "s1", .post, some "tools/call"⟩
        "n" (.fail false false)).2 = .internalError := by
  have h := c4_dispatch_failure.1 ⟨[("s1", 0)], 1, [(0, 0)]⟩
    ⟨some "s1", .post, some "tools/call"⟩ "n" false false 0 (by decide)
  exact ⟨by decide, h.1, h.2.2.1 rfl⟩

/-- C5 counterexample: starting from the empty state, two initializing
requests create two distinct sessions "a" (transport 0) and "b"
(transport 1), yet the connection log shows both transports connected to
the same module-level Protocol Server instance `mcpServerId` — no fresh
Protocol Server is allocated per session, refuting "each session is served
by its own Protocol Server instance". -/
theorem c5_counterexample :
    alookup ((mcpHandler (mcpHandler initState ⟨none, .post, some "initialize"⟩
        "a" .ok).1 ⟨none, .post, some "initialize"⟩ "b" .ok).1).transports "a"
      = some 0 ∧
    alookup ((mcpHandler (mcpHandler initState ⟨none, .post, some "initialize"⟩
        "a" .ok).1 ⟨none, .post, some "initialize"⟩ "b" .ok).1).transports "b"
      = some 1 ∧
    ((mcpHandler (mcpHandler initState ⟨none, .post, some "initialize"⟩
        "a" .ok).1 ⟨none, .post, some "initialize"⟩ "b" .ok).1).conns
      = [(1, mcpServerId), (0, mcpServerId)] := by
  decide

/-- C5 (amended): on every Create transition a fresh transport instance
(index `s.nextTid`, never used before at any reachable state) is allocated
and connected to the single module-level Protocol Server instance
`mcpServerId`, which is shared across all sessions — every connection ever
recorded is to that one server. -/
theorem c5_shared_server :
    (∀ (s : SessionState) (r : McpRequest) (newSid : String)
        (d : DispatchOutcome),
        truthyStr r.sessionId = false → r.method = HttpMethod.post →
        r.bodyMethod = some "initialize" →
        (mcpHandler s r newSid d).1.conns = (s.nextTid, mcpServerId) :: s.conns) ∧
    (∀ s : SessionState, ReachableState s → ∀ p ∈ s.conns, p.2 = mcpServerId) ∧
    (∀ s : SessionState, ReachableState s → ∀ p ∈ s.conns, p.1 < s.nextTid) := by
  refine ⟨?_, fun s h => (sessionInv_of_reachable h).2.1,
          fun s h => (sessionInv_of_reachable h).2.2⟩
  intro s r newSid d h1 h2 h3
  have hsl : sessionLookup s r = none := sessionLookup_eq_none_of_falsy h1
  cases d with
  | ok => simp [mcpHandler, hsl, h1, h2, h3]
  | fail ib hs => simp [mcpHandler, hsl, h1, h2, h3]

/-- C5 witness: the amended theorem at concrete inputs. -/
theorem c5_witness :
    (mcpHandler initState ⟨none, .post, some "initialize"⟩ "a" .ok).1.conns
        = [(0, mcpServerId)] ∧
    (∀ p ∈ (initState : SessionState).conns, p.2 = mcpServerId) := by
  exact ⟨c5_shared_server.1 initState ⟨none, .post, some "initialize"⟩ "a" .ok
           rfl rfl rfl,
         c5_shared_server.2.1 initState ReachableState.init⟩

/-- C6 counterexample: with no environment overrides the `server.ts` entry
point selects the HTTP transport, not the pipe (stdio must be explicitly
selected), and the `index.ts` HTTP branch binds host `"localhost"`, not
`"0.0.0.0"` — refuting the claim's "transport is the single-peer pipe unless
HTTP is explicitly selected" with defaults "host 0.0.0.0". -/
theorem c6_counterexample :
    startServerTransport none = TransportKind.http ∧
    TransportKind.http ≠ TransportKind.stdio ∧
    indexHost ["--http"] = "localhost" ∧
    ("localhost" : String) ≠ "0.0.0.0" := by
  decide

/-- C6 (amended): `server-config.ts` defaults are host `0.0.0.0` and port
3000; the `server.ts` entry point defaults to the HTTP transport, selecting
stdio only when `TRANSPORT=stdio` is set; the `index.ts` entry point
defaults to stdio unless `--http` is passed, and its HTTP branch then
defaults to host `localhost` and port 3000. -/
theorem c6_defaults :
    HOST none = "0.0.0.0" ∧ PORT none = some 3000 ∧
    startServerTransport none = TransportKind.http ∧
    startServerTransport (some "stdio") = TransportKind.stdio ∧
    indexTransport [] = TransportKind.stdio ∧
    indexTransport ["--http"] = TransportKind.http ∧
    indexHost ["--http"] = "localhost" ∧
    indexPort ["--http"] none = some 3000 := by
  decide
